import Mathlib

/-!
Shallow embedding of the dictionary-generation core of the
Password-cracking-credential-attack-suite repository
(`src/dictionary_generator/patterns.py`, `src/dictionary_generator/generator.py`,
`src/config.py`), together with theorems settling the specification claims.

Python strings are modelled as Lean `String` (a sequence of code points, matching
Python's `str`); Python's `set` of strings is modelled as `Finset String`;
Python `int` is modelled as `Int` (`Nat` where the source value is clearly
non-negative).  Decimal rendering `str(n)` is embedded explicitly
(`pyStrChars` / `intStrChars`) so that slicing `str(year)[2:]` is `List.drop 2`
on the code points, exactly as Python slices code points.
-/

namespace PwSuite

/-- Decimal digit character, `chr(48 + d)`; agrees with Python's rendering of
a single digit. -/
def digitChar (d : Nat) : Char := Char.ofNat (48 + d)

/-- Fuel-indexed decimal rendering of a natural number, most significant digit
first.  With fuel `n` this computes the full decimal form of `n` (the fuel
strictly dominates the digit count). -/
def natStrAux : Nat → Nat → List Char
  | 0, n => [digitChar (n % 10)]
  | fuel + 1, n => if n < 10 then [digitChar n] else natStrAux fuel (n / 10) ++ [digitChar (n % 10)]

/-- Code points of Python `str(n)` for a non-negative `n`. -/
def pyStrChars (n : Nat) : List Char := natStrAux n n

/-- Code points of Python `str(i)` for an arbitrary integer. -/
def intStrChars (i : Int) : List Char :=
  if i < 0 then '-' :: pyStrChars i.natAbs else pyStrChars i.toNat

/-- Embedding of Python `range(s, e + 1)`: the integers `s, s+1, …, e`
(empty when `e < s`). -/
def intRange (s e : Int) : List Int :=
  (List.range (e + 1 - s).toNat).map (fun i : Nat => s + (i : Int))

/-- Embedding of Python `f"{n:02d}"`: zero-pad to two digits. -/
def pad2 (n : Nat) : String :=
  if n < 10 then "0" ++ ⟨pyStrChars n⟩ else ⟨pyStrChars n⟩

/-! ### PatternGenerator (`src/dictionary_generator/patterns.py`) -/

/-- `PatternGenerator.generate_year_patterns(start_year, end_year)`: for each
year in `range(start_year, end_year + 1)` append `str(year)` and
`str(year)[2:]`. -/
def generate_year_patterns (start_year end_year : Int) : List String :=
  (intRange start_year end_year).flatMap
    (fun y => [⟨intStrChars y⟩, ⟨(intStrChars y).drop 2⟩])

/-- `config.LEET_SPEAK_MAP` from `src/config.py`, in dict insertion order.
The first entry of each substitute list is the letter itself. -/
def leetSpeakMap : List (Char × List Char) :=
  [('a', ['a', '@', '4']),
   ('e', ['e', '3']),
   ('i', ['i', '1', '!']),
   ('o', ['o', '0']),
   ('s', ['s', '$', '5']),
   ('t', ['t', '7']),
   ('l', ['l', '1']),
   ('g', ['g', '9']),
   ('b', ['b', '8'])]

/-- `config.SPECIAL_CHARACTERS` from `src/config.py`. -/
def specialCharacters : List String :=
  ["!", "@", "#", "$", "%", "&", "*", "?"]

/-- `config.COMMON_PASSWORDS` from `src/config.py`. -/
def commonPasswords : List String :=
  ["password", "123456", "password123", "admin", "letmein",
   "welcome", "monkey", "dragon", "master", "sunshine",
   "princess", "qwerty", "abc123", "111111", "iloveyou",
   "admin123", "password1", "12345678", "123456789", "1234567890"]

/-- `config.KEYBOARD_PATTERNS` from `src/config.py`. -/
def keyboardPatterns : List String :=
  ["qwerty", "qwertyuiop", "asdfgh", "asdfghjkl", "zxcvbn",
   "1qaz2wsx", "qazwsx", "123qwe", "1q2w3e4r", "qweasd",
   "!qaz@wsx", "1234", "12345", "123456", "1234567", "12345678"]

/-- Python `word.lower()` restricted to ASCII case mapping (all strings the
program manipulates are ASCII). -/
def pyLower (w : String) : String := ⟨w.data.map Char.toLower⟩

/-- Python `word.upper()` restricted to ASCII case mapping. -/
def pyUpper (w : String) : String := ⟨w.data.map Char.toUpper⟩

/-- Python `word.capitalize()`: first code point uppercased, the rest
lowercased. -/
def pyCapitalize (w : String) : String :=
  match w.data with
  | [] => ""
  | c :: rest => ⟨Char.toUpper c :: rest.map Char.toLower⟩

/-- Python `s.replace(c, r)` for a single-character needle and replacement:
every occurrence of `c` replaced by `r`. -/
def replaceChar (w : String) (c r : Char) : String :=
  ⟨w.data.map (fun x => if x = c then r else x)⟩

/-- `PatternGenerator.generate_leet_speak_patterns(word)`: the original word,
then, for each letter of `LEET_SPEAK_MAP` occurring in `word.lower()`, one
variant per non-identity substitute (all occurrences replaced at once). -/
def generate_leet_speak_patterns (word : String) : List String :=
  let word_lower := pyLower word
  word :: leetSpeakMap.flatMap
    (fun p =>
      if word_lower.data.contains p.1 then
        (p.2.drop 1).map (fun r => replaceChar word_lower p.1 r)
      else [])

/-- `PatternGenerator.generate_case_variations(word)`: lower, upper,
capitalized, and (for `len(word) <= 10`) alternating case. -/
def generate_case_variations (word : String) : List String :=
  [pyLower word, pyUpper word, pyCapitalize word] ++
    (if word.length ≤ 10 then
      [⟨word.data.enum.map
          (fun p => if p.1 % 2 = 0 then p.2.toUpper else p.2.toLower)⟩]
     else [])

/-- `PatternGenerator.generate_special_char_variations(word)`: for each
special character, `word + char` then `char + word`. -/
def generate_special_char_variations (word : String) : List String :=
  specialCharacters.flatMap (fun c => [word ++ c, c ++ word])

/-- Inner loop of `PatternGenerator.generate_word_number_combinations`: walk
the number list, stopping (the Python `break`) once `count` reaches
`max_combinations`. -/
def gwncInner (word : String) (nums : List String) (maxC : Nat)
    (acc : List String) (count : Nat) : List String × Nat :=
  match nums with
  | [] => (acc, count)
  | n :: rest =>
    if maxC ≤ count then (acc, count)
    else gwncInner word rest maxC (acc ++ [word ++ n]) (count + 1)

/-- Outer loop of `PatternGenerator.generate_word_number_combinations`. -/
def gwncOuter (words nums : List String) (maxC : Nat)
    (acc : List String) (count : Nat) : List String :=
  match words with
  | [] => acc
  | w :: rest =>
    let r := gwncInner w nums maxC acc count
    if maxC ≤ r.2 then r.1 else gwncOuter rest nums maxC r.1 r.2

/-- `PatternGenerator.generate_word_number_combinations(words, numbers,
max_combinations)`. -/
def generate_word_number_combinations (words nums : List String)
    (maxC : Nat) : List String :=
  gwncOuter words nums maxC [] 0

/-! ### DictionaryGenerator state (`src/dictionary_generator/generator.py`) -/

/-- The `self.stats` dictionary of `DictionaryGenerator`. -/
structure Stats where
  base_words : Nat
  date_patterns : Nat
  mutations : Nat
  total_generated : Nat
deriving DecidableEq

/-- The mutable state of a `DictionaryGenerator` instance: the accumulating
word set `self.wordlist` and `self.stats`. -/
structure GenState where
  wordlist : Finset String
  stats : Stats
deriving DecidableEq

/-- A freshly constructed `DictionaryGenerator`. -/
def initState : GenState := ⟨∅, ⟨0, 0, 0, 0⟩⟩

/-- `DictionaryGenerator.add_word(word)`: insert into the set iff
`word and len(word) > 0`. -/
def addWord (s : Finset String) (w : String) : Finset String :=
  if w ≠ "" ∧ 0 < w.length then insert w s else s

/-- `DictionaryGenerator.add_words(words)`: `add_word` on each element in
order. -/
def addWords (s : Finset String) (l : List String) : Finset String :=
  l.foldl addWord s

/-! ### Basic lemmas about `addWord` / `addWords` -/

theorem addWord_eq (s : Finset String) (w : String) :
    addWord s w = if w = "" then s else insert w s := by
  unfold addWord
  rcases eq_or_ne w "" with h | h
  · subst h; simp
  · have hlen : 0 < w.length := by
      cases w with
      | mk data =>
        cases data with
        | nil => exact absurd rfl h
        | cons c cs => simp [String.length]
    simp [h, hlen]

theorem mem_addWord (s : Finset String) (w x : String) :
    x ∈ addWord s w ↔ x ∈ s ∨ (x = w ∧ x ≠ "") := by
  rw [addWord_eq]
  rcases eq_or_ne w "" with hw | hw
  · subst hw; simp
  · rw [if_neg hw]
    simp only [Finset.mem_insert]
    constructor
    · rintro (rfl | hs)
      · exact Or.inr ⟨rfl, hw⟩
      · exact Or.inl hs
    · rintro (hs | ⟨rfl, _⟩)
      · exact Or.inr hs
      · exact Or.inl rfl

theorem mem_addWords (s : Finset String) (l : List String) (x : String) :
    x ∈ addWords s l ↔ x ∈ s ∨ (x ∈ l ∧ x ≠ "") := by
  induction l generalizing s with
  | nil => simp [addWords]
  | cons w t ih =>
    have step : addWords s (w :: t) = addWords (addWord s w) t := rfl
    rw [step, ih, mem_addWord]
    simp only [List.mem_cons]
    constructor
    · rintro ((hs | ⟨rfl, hne⟩) | ⟨ht, hne⟩)
      · exact Or.inl hs
      · exact Or.inr ⟨Or.inl rfl, hne⟩
      · exact Or.inr ⟨Or.inr ht, hne⟩
    · rintro (hs | ⟨rfl | ht, hne⟩)
      · exact Or.inl (Or.inl hs)
      · exact Or.inl (Or.inr ⟨rfl, hne⟩)
      · exact Or.inr ⟨ht, hne⟩

theorem addWords_eq (s : Finset String) (l : List String) :
    addWords s l = s ∪ (l.filter (fun w => w ≠ "")).toFinset := by
  ext x
  simp [mem_addWords, List.mem_filter]

theorem empty_not_mem_addWord (s : Finset String) (w : String)
    (h : "" ∉ s) : "" ∉ addWord s w := by
  rw [mem_addWord]
  rintro (hs | ⟨_, hne⟩)
  · exact h hs
  · exact hne rfl

theorem empty_not_mem_addWords (s : Finset String) (l : List String)
    (h : "" ∉ s) : "" ∉ addWords s l := by
  rw [mem_addWords]
  rintro (hs | ⟨_, hne⟩)
  · exact h hs
  · exact hne rfl

/-! ### DictionaryGenerator generation phases -/

/-- `DictionaryGenerator.generate_base_words(base_words)`. -/
def generate_base_words (st : GenState) (base_words : List String) : GenState :=
  { wordlist := addWords st.wordlist base_words
    stats := { st.stats with base_words := base_words.length } }

/-- The list of strings inserted by one iteration (one base word) of
`generate_with_dates`: `word + year` for each year pattern, then
`word + f"{month:02d}"` for months 1–12, then `word + f"{day:02d}"` for
days 1–31. -/
def dateInsertions (years : List String) (word : String) : List String :=
  years.map (fun y => word ++ y) ++
    (List.range' 1 12).map (fun m => word ++ pad2 m) ++
    (List.range' 1 31).map (fun d => word ++ pad2 d)

/-- `DictionaryGenerator.generate_with_dates(base_words, start_year,
end_year)`: adds the date combinations and records the number of insertion
attempts in `stats['date_patterns']`. -/
def generate_with_dates (st : GenState) (base_words : List String)
    (start_year end_year : Int) : GenState :=
  let years := generate_year_patterns start_year end_year
  { wordlist := addWords st.wordlist (base_words.flatMap (dateInsertions years))
    stats := { st.stats with
      date_patterns := base_words.length * (years.length + 12 + 31) } }

/-- The `common_numbers` literal inside
`DictionaryGenerator.generate_with_numbers`. -/
def commonNumbers : List String :=
  ["1", "12", "123", "1234", "12345", "123456",
   "0", "00", "000",
   "01", "001", "0001",
   "!", "!!", "!!!",
   "@", "@@"]

/-- Number of iterations of the sequential loop in `generate_with_numbers`:
`range(min(100, max_number + 1))`. -/
def seqCount (maxN : Int) : Nat := (min 100 (maxN + 1)).toNat

/-- The list of strings inserted for one base word by
`generate_with_numbers`: the common numeric suffixes, then `word + str(i)`
for `i in range(min(100, max_number + 1))`. -/
def numberInsertions (maxN : Int) (word : String) : List String :=
  commonNumbers.map (fun n => word ++ n) ++
    (List.range (seqCount maxN)).map (fun i => word ++ (⟨pyStrChars i⟩ : String))

/-- `DictionaryGenerator.generate_with_numbers(base_words, max_number=999)`.
This method does not update `self.stats`. -/
def generate_with_numbers (st : GenState) (base_words : List String)
    (maxN : Int) : GenState :=
  { st with wordlist := addWords st.wordlist (base_words.flatMap (numberInsertions maxN)) }

/-- `DictionaryGenerator.generate_common_passwords()`. -/
def generate_common_passwords (st : GenState) : GenState :=
  { st with wordlist := addWords st.wordlist commonPasswords }

/-- `DictionaryGenerator.generate_keyboard_patterns()`. -/
def generate_keyboard_patterns (st : GenState) : GenState :=
  { st with wordlist := addWords st.wordlist keyboardPatterns }

/-- `DictionaryGenerator.apply_leet_speak(base_words)`: the per-word variants
are first collected into the local Python set `new_words` and then passed to
`add_words`; the set is modelled as the `Finset` union of the variant lists,
and feeding it to `add_words` keeps the non-empty members. -/
def apply_leet_speak (st : GenState) (base_words : List String) : GenState :=
  let new_words : Finset String :=
    (base_words.flatMap generate_leet_speak_patterns).toFinset
  { wordlist := st.wordlist ∪ new_words.filter (fun w => w ≠ "")
    stats := { st.stats with
      mutations := st.stats.mutations +
        (base_words.map (fun w => (generate_leet_speak_patterns w).length)).sum } }

/-- `DictionaryGenerator.apply_uppercase_variations(base_words)`; same
`new_words`-set structure as `apply_leet_speak`. -/
def apply_uppercase_variations (st : GenState) (base_words : List String) : GenState :=
  let new_words : Finset String :=
    (base_words.flatMap generate_case_variations).toFinset
  { wordlist := st.wordlist ∪ new_words.filter (fun w => w ≠ "")
    stats := { st.stats with
      mutations := st.stats.mutations +
        (base_words.map (fun w => (generate_case_variations w).length)).sum } }

/-- `DictionaryGenerator.apply_special_characters(base_words)`: here the
variants are passed to `add_words` directly, word by word. -/
def apply_special_characters (st : GenState) (base_words : List String) : GenState :=
  { wordlist := addWords st.wordlist (base_words.flatMap generate_special_char_variations)
    stats := { st.stats with
      mutations := st.stats.mutations +
        (base_words.map (fun w => (generate_special_char_variations w).length)).sum } }

/-- Python whitespace test used by `str.strip()` (ASCII whitespace). -/
def isPySpace (c : Char) : Bool :=
  c = ' ' || c = '\t' || c = '\n' || c = '\x0d' || c = '\x0b' || c = '\x0c'

/-- Python `line.strip()`. -/
def pyStrip (s : String) : String :=
  ⟨((s.data.dropWhile isPySpace).reverse.dropWhile isPySpace).reverse⟩

/-- `username.replace('.', '').replace('_', '')`. -/
def removeDotsUnderscores (s : String) : String :=
  ⟨s.data.filter (fun c => !(c = '.' || c = '_'))⟩

/-- The insertions performed for one username inside
`generate_from_username_file` (after the usernames themselves were added). -/
def usernameInsertions (u : String) : List String :=
  [u ++ "123", u ++ "@123", u ++ "!", u ++ "2024"] ++
    (let cleaned := removeDotsUnderscores u
     if cleaned ≠ u then [cleaned, cleaned ++ "123"] else [])

/-- `DictionaryGenerator.generate_from_username_file(filepath)`.  The file
system is modelled as a partial map from paths to the list of raw lines;
`none` covers both a missing file and a read failure (the method logs and
returns, leaving the state unchanged). -/
def generate_from_username_file (fs : String → Option (List String))
    (st : GenState) (filepath : String) : GenState :=
  match fs filepath with
  | none => st
  | some rawLines =>
    let usernames := (rawLines.map pyStrip).filter (fun l => l ≠ "")
    let wl := addWords (addWords st.wordlist usernames)
      (usernames.flatMap usernameInsertions)
    { st with wordlist := wl }

/-! ### Configuration and the orchestrator -/

/-- The `mutations` sub-dictionary of the user configuration; `none` models
an absent key. -/
structure MutationsConfig where
  leetspeak : Option Bool
  uppercase : Option Bool
  numbers : Option Bool
  special : Option Bool
deriving DecidableEq

/-- The `user_config` dictionary handed to
`DictionaryGenerator.generate_dictionary`; `none` models an absent key. -/
structure UserConfig where
  base_words : Option (List String)
  username_file : Option String
  use_dates : Option Bool
  start_year : Option Int
  end_year : Option Int
  use_common : Option Bool
  use_keyboard : Option Bool
  mutations : Option MutationsConfig
deriving DecidableEq

/-- `config.DEFAULT_START_YEAR`. -/
def defaultStartYear : Int := 1990

/-- `config.DEFAULT_END_YEAR`. -/
def defaultEndYear : Int := 2024

/-- Steps 1–6 of `DictionaryGenerator.generate_dictionary`: base words,
optional username file, optional dates, optional common passwords, optional
keyboard patterns, and the number phase (on by default).  Only entered when
`base_words` is non-empty. -/
def generatePhases1to6 (fs : String → Option (List String))
    (cfg : UserConfig) (st : GenState) : GenState :=
  let base_words := cfg.base_words.getD []
  let mutations := cfg.mutations.getD ⟨none, none, none, none⟩
  let st := generate_base_words st base_words
  let uf := cfg.username_file.getD ""
  let st := if uf ≠ "" ∧ (fs uf).isSome then generate_from_username_file fs st uf else st
  let st := if (cfg.use_dates).getD false then
      generate_with_dates st base_words (cfg.start_year.getD defaultStartYear)
        (cfg.end_year.getD defaultEndYear)
    else st
  let st := if (cfg.use_common).getD false then generate_common_passwords st else st
  let st := if (cfg.use_keyboard).getD false then generate_keyboard_patterns st else st
  if (mutations.numbers).getD true then generate_with_numbers st base_words 999 else st

/-- Step 7 of `generate_dictionary`: the three mutation passes, each applied
to the original `base_words` list (the `current_words` snapshot computed in
the source is never used). -/
def applyMutationPhases (st : GenState) (base_words : List String)
    (m : MutationsConfig) : GenState :=
  let st := if (m.leetspeak).getD false then apply_leet_speak st base_words else st
  let st := if (m.uppercase).getD false then apply_uppercase_variations st base_words else st
  if (m.special).getD false then apply_special_characters st base_words else st

/-- `DictionaryGenerator.generate_dictionary(user_config)`: returns the new
state together with the returned count. -/
def generate_dictionary (fs : String → Option (List String))
    (cfg : UserConfig) (st : GenState) : GenState × Nat :=
  let base_words := cfg.base_words.getD []
  let mutations := cfg.mutations.getD ⟨none, none, none, none⟩
  if base_words.isEmpty then (st, 0)
  else
    let st := generatePhases1to6 fs cfg st
    let st := applyMutationPhases st base_words mutations
    let st : GenState :=
      { st with stats := { st.stats with total_generated := st.wordlist.card } }
    (st, st.wordlist.card)

/-! ### Saving (`DictionaryGenerator.save_to_file`) -/

/-- The sort key order used by `save_to_file`:
`words_to_save.sort(key=lambda x: (len(x), x))` — length first, then
code-point lexicographic. -/
def lenLex (x y : String) : Prop :=
  x.length < y.length ∨ (x.length = y.length ∧ x ≤ y)

instance : DecidableRel lenLex := fun x y => by
  unfold lenLex; infer_instance

instance : IsTotal String lenLex where
  total x y := by
    unfold lenLex
    rcases Nat.lt_trichotomy x.length y.length with h | h | h
    · exact Or.inl (Or.inl h)
    · rcases le_total x y with hxy | hxy
      · exact Or.inl (Or.inr ⟨h, hxy⟩)
      · exact Or.inr (Or.inr ⟨h.symm, hxy⟩)
    · exact Or.inr (Or.inl h)

instance : IsTrans String lenLex where
  trans x y z hxy hyz := by
    unfold lenLex at *
    rcases hxy with h1 | ⟨h1, h1'⟩ <;> rcases hyz with h2 | ⟨h2, h2'⟩
    · exact Or.inl (h1.trans h2)
    · exact Or.inl (h2 ▸ h1)
    · exact Or.inl (h1 ▸ h2)
    · exact Or.inr ⟨h1.trans h2, le_trans h1' h2'⟩

instance : IsAntisymm String lenLex where
  antisymm x y hxy hyx := by
    unfold lenLex at *
    rcases hxy with h1 | ⟨h1, h1'⟩ <;> rcases hyx with h2 | ⟨h2, h2'⟩ <;>
      first
        | omega
        | exact le_antisymm h1' h2'

/-- The sequence of lines written by `save_to_file(filepath, max_words)`:
materialize the set (`words` is the materialization), sort by
`(len(x), x)`, truncate to `max_words` entries when `max_words > 0` and the
list is longer. -/
def saveLines (words : List String) (maxWords : Nat) : List String :=
  let sorted := List.insertionSort lenLex words
  if 0 < maxWords ∧ maxWords < sorted.length then sorted.take maxWords else sorted

/-- The full file content written by `save_to_file`: each line followed by a
newline. -/
def saveContent (words : List String) (maxWords : Nat) : String :=
  String.join ((saveLines words maxWords).map (fun w => w ++ "\n"))

/-! ### Invariant plumbing: the empty string never enters the word set -/

theorem empty_not_mem_union_filter (s t : Finset String)
    (h : "" ∉ s) : "" ∉ s ∪ t.filter (fun w => w ≠ "") := by
  intro hmem
  rcases Finset.mem_union.1 hmem with hs | hf
  · exact h hs
  · exact (Finset.mem_filter.1 hf).2 rfl

theorem empty_not_mem_generate_from_username_file
    (fs : String → Option (List String)) (st : GenState) (p : String)
    (h : "" ∉ st.wordlist) :
    "" ∉ (generate_from_username_file fs st p).wordlist := by
  unfold generate_from_username_file
  cases fs p with
  | none => exact h
  | some rawLines => exact empty_not_mem_addWords _ _ (empty_not_mem_addWords _ _ h)

theorem empty_not_mem_if (c : Prop) [Decidable c] (f : GenState → GenState)
    (st : GenState)
    (hf : ∀ s : GenState, "" ∉ s.wordlist → "" ∉ (f s).wordlist)
    (h : "" ∉ st.wordlist) :
    "" ∉ (if c then f st else st).wordlist := by
  split
  · exact hf st h
  · exact h

theorem empty_not_mem_generatePhases1to6
    (fs : String → Option (List String)) (cfg : UserConfig) (st : GenState)
    (h : "" ∉ st.wordlist) :
    "" ∉ (generatePhases1to6 fs cfg st).wordlist := by
  unfold generatePhases1to6
  dsimp only
  refine empty_not_mem_if _ (fun s => generate_with_numbers s _ 999) _
    (fun s hs => empty_not_mem_addWords _ _ hs) ?_
  refine empty_not_mem_if _ (fun s => generate_keyboard_patterns s) _
    (fun s hs => empty_not_mem_addWords _ _ hs) ?_
  refine empty_not_mem_if _ (fun s => generate_common_passwords s) _
    (fun s hs => empty_not_mem_addWords _ _ hs) ?_
  refine empty_not_mem_if _ (fun s => generate_with_dates s _ _ _) _
    (fun s hs => empty_not_mem_addWords _ _ hs) ?_
  refine empty_not_mem_if _ (fun s => generate_from_username_file fs s _) _
    (fun s hs => empty_not_mem_generate_from_username_file fs s _ hs) ?_
  exact empty_not_mem_addWords _ _ h

theorem empty_not_mem_applyMutationPhases (st : GenState)
    (base : List String) (m : MutationsConfig)
    (h : "" ∉ st.wordlist) :
    "" ∉ (applyMutationPhases st base m).wordlist := by
  unfold applyMutationPhases
  dsimp only
  refine empty_not_mem_if _ (fun s => apply_special_characters s base) _
    (fun s hs => empty_not_mem_addWords _ _ hs) ?_
  refine empty_not_mem_if _ (fun s => apply_uppercase_variations s base) _
    (fun s hs => empty_not_mem_union_filter _ _ hs) ?_
  exact empty_not_mem_if _ (fun s => apply_leet_speak s base) _
    (fun s hs => empty_not_mem_union_filter _ _ hs) h

theorem empty_not_mem_generate_dictionary
    (fs : String → Option (List String)) (cfg : UserConfig) (st : GenState)
    (h : "" ∉ st.wordlist) :
    "" ∉ (generate_dictionary fs cfg st).1.wordlist := by
  unfold generate_dictionary
  dsimp only
  split
  · exact h
  · exact empty_not_mem_applyMutationPhases _ _ _
      (empty_not_mem_generatePhases1to6 fs cfg st h)

/-! ### Claim theorems -/

/-- C1: the candidate set never contains the empty string and, being a set,
never contains duplicates: `add_word` inserts a non-empty word, is a no-op on
the empty string, is idempotent (a second identical call leaves the set —
and hence its size — unchanged), and the no-empty-string invariant is
preserved by `add_words` and by every growing phase of
`generate_dictionary`. -/
theorem addWord_candidate_set_invariant :
    (∀ (s : Finset String) (w : String), w ≠ "" →
        w ∈ addWord s w ∧ addWord s w = insert w s) ∧
    (∀ s : Finset String, addWord s "" = s) ∧
    (∀ (s : Finset String) (w : String),
        addWord (addWord s w) w = addWord s w ∧
        (addWord (addWord s w) w).card = (addWord s w).card) ∧
    (∀ (s : Finset String) (l : List String), "" ∉ s → "" ∉ addWords s l) ∧
    (∀ (fs : String → Option (List String)) (cfg : UserConfig) (st : GenState),
        "" ∉ st.wordlist → "" ∉ (generate_dictionary fs cfg st).1.wordlist) := by
  refine ⟨?_, ?_, ?_, ?_, ?_⟩
  · intro s w hw
    rw [addWord_eq, if_neg hw]
    exact ⟨Finset.mem_insert_self w s, rfl⟩
  · intro s
    rw [addWord_eq, if_pos rfl]
  · intro s w
    have hidem : addWord (addWord s w) w = addWord s w := by
      rw [addWord_eq, addWord_eq]
      rcases eq_or_ne w "" with hw | hw
      · simp [hw]
      · simp [hw, Finset.insert_idem]
    exact ⟨hidem, by rw [hidem]⟩
  · exact empty_not_mem_addWords
  · exact empty_not_mem_generate_dictionary

/-- Witness for C1 at concrete inputs. -/
theorem addWord_candidate_set_invariant_witness :
    ("x" : String) ≠ "" ∧ "x" ∈ addWord ∅ "x" ∧
    ("" ∉ (∅ : Finset String)) ∧ "" ∉ addWords ∅ ["x", ""] ∧
    "" ∉ (generate_dictionary (fun _ => none)
      ⟨some ["x"], none, none, none, none, none, none, none⟩ initState).1.wordlist := by
  have h := addWord_candidate_set_invariant
  refine ⟨by decide, (h.1 ∅ "x" (by decide)).1, by decide,
    h.2.2.2.1 ∅ ["x", ""] (by decide),
    h.2.2.2.2 (fun _ => none)
      ⟨some ["x"], none, none, none, none, none, none, none⟩ initState (by decide)⟩

/-- C2 counterexample: on the inverted range `(2024, 2023)` the code does not
fail at all — the Python `range` is empty and the function returns the empty
list; no `InvalidRangeError` (or any other error path) exists in
`generate_year_patterns`. -/
theorem yearPatterns_inverted_range_cex :
    generate_year_patterns 2024 2023 = [] := by decide

/-- C2 as amended: `generate_year_patterns` is total; whenever
`end_year < start_year` it simply returns the empty list instead of
failing. -/
theorem yearPatterns_total_on_inverted (start_year end_year : Int)
    (h : end_year < start_year) :
    generate_year_patterns start_year end_year = [] := by
  unfold generate_year_patterns intRange
  have h0 : (end_year + 1 - start_year).toNat = 0 := by omega
  rw [h0]
  rfl

/-- Witness for the amended C2 at the claim's concrete input. -/
theorem yearPatterns_total_on_inverted_witness :
    (2023 : Int) < 2024 ∧ generate_year_patterns 2024 2023 = [] :=
  ⟨by decide, yearPatterns_total_on_inverted 2024 2023 (by decide)⟩

/-- C7: with an empty seed-word list `generate_dictionary` returns `0`
immediately and the state (word set and statistics alike) is untouched; in
particular a fresh generator ends with an empty candidate set. -/
theorem generate_dictionary_empty_seeds
    (fs : String → Option (List String)) (cfg : UserConfig) (st : GenState)
    (h : cfg.base_words.getD [] = []) :
    generate_dictionary fs cfg st = (st, 0) ∧
    (generate_dictionary fs cfg initState).1.wordlist = ∅ := by
  have hmain : ∀ s : GenState, generate_dictionary fs cfg s = (s, 0) := by
    intro s
    unfold generate_dictionary
    rw [h]
    rfl
  exact ⟨hmain st, by rw [hmain initState]; rfl⟩

/-- Witness for C7 with a configuration whose seed-word key is absent. -/
theorem generate_dictionary_empty_seeds_witness :
    (UserConfig.mk none none none none none none none none).base_words.getD [] = [] ∧
    generate_dictionary (fun _ => none)
      ⟨none, none, none, none, none, none, none, none⟩ initState = (initState, 0) :=
  ⟨by decide,
    (generate_dictionary_empty_seeds (fun _ => none)
      ⟨none, none, none, none, none, none, none, none⟩ initState (by decide)).1⟩

/-- C10: with a configuration that supplies only seed words and a `mutations`
sub-dictionary with every key absent, `generate_dictionary` still runs the
number-suffix phase (its toggle defaults to enabled) and runs nothing else:
the result is exactly base-word ingestion followed by the number phase, while
the date, common-password, keyboard, leet-speak, uppercase-variation and
special-character phases are all skipped. -/
theorem generate_dictionary_default_toggles
    (fs : String → Option (List String)) (st : GenState) (base : List String)
    (h : base ≠ []) :
    generate_dictionary fs
        ⟨some base, none, none, none, none, none, none, some ⟨none, none, none, none⟩⟩ st =
      (let st2 := generate_with_numbers (generate_base_words st base) base 999
       ({ st2 with stats := { st2.stats with total_generated := st2.wordlist.card } },
        st2.wordlist.card)) := by
  have hne : base.isEmpty = false := by
    cases base with
    | nil => exact absurd rfl h
    | cons a t => rfl
  unfold generate_dictionary generatePhases1to6 applyMutationPhases
  simp [hne]

/-- Witness for C10 with the seed list `["a"]`. -/
theorem generate_dictionary_default_toggles_witness :
    (["a"] : List String) ≠ [] ∧
    generate_dictionary (fun _ => none)
        ⟨some ["a"], none, none, none, none, none, none, some ⟨none, none, none, none⟩⟩
        initState =
      (let st2 := generate_with_numbers (generate_base_words initState ["a"]) ["a"] 999
       ({ st2 with stats := { st2.stats with total_generated := st2.wordlist.card } },
        st2.wordlist.card)) :=
  ⟨by decide,
    generate_dictionary_default_toggles (fun _ => none) initState ["a"] (by decide)⟩

/-! ### C8: word–number combinations stop exactly at the cap -/

theorem gwncInner_eq (w : String) (nums : List String) (maxC : Nat)
    (acc : List String) (count : Nat) (h : count ≤ maxC) :
    gwncInner w nums maxC acc count =
      (acc ++ (nums.map (fun n => w ++ n)).take (maxC - count),
       count + min nums.length (maxC - count)) := by
  induction nums generalizing acc count with
  | nil => simp [gwncInner]
  | cons n rest ih =>
    rw [gwncInner]
    by_cases hc : maxC ≤ count
    · have h0 : maxC - count = 0 := by omega
      simp [hc, h0]
    · rw [if_neg hc, ih (acc ++ [w ++ n]) (count + 1) (by omega)]
      have hk : maxC - count = (maxC - (count + 1)) + 1 := by omega
      rw [List.map_cons, hk, List.take_succ_cons]
      simp only [Prod.mk.injEq]
      constructor
      · simp
      · simp only [List.length_cons]
        omega

theorem gwncOuter_eq (words nums : List String) (maxC : Nat)
    (acc : List String) (count : Nat) (h : count ≤ maxC) :
    gwncOuter words nums maxC acc count =
      acc ++ (words.flatMap (fun w => nums.map (fun n => w ++ n))).take (maxC - count) := by
  induction words generalizing acc count with
  | nil => simp [gwncOuter]
  | cons w rest ih =>
    rw [gwncOuter, gwncInner_eq w nums maxC acc count h]
    dsimp only
    by_cases hstop : maxC ≤ count + min nums.length (maxC - count)
    · rw [if_pos hstop]
      have hz0 : maxC - count - (nums.map (fun n => w ++ n)).length = 0 := by
        simp only [List.length_map]; omega
      rw [List.flatMap_cons, List.take_append_eq_append_take, hz0]
      simp
    · rw [if_neg hstop]
      have hlt : nums.length < maxC - count := by omega
      have hmin : min nums.length (maxC - count) = nums.length := by omega
      rw [hmin] at hstop ⊢
      rw [ih (acc ++ (nums.map (fun n => w ++ n)).take (maxC - count)) (count + nums.length) (by omega)]
      have htake : (nums.map (fun n => w ++ n)).take (maxC - count) = nums.map (fun n => w ++ n) := by
        apply List.take_of_length_le
        simpa using hlt.le
      rw [htake, List.flatMap_cons, List.take_append_eq_append_take]
      have htake2 : (nums.map (fun n => w ++ n)).take (maxC - count) = nums.map (fun n => w ++ n) := htake
      rw [htake2]
      have harith : maxC - count - (nums.map (fun n => w ++ n)).length = maxC - (count + nums.length) := by
        simp only [List.length_map]; omega
      rw [harith, List.append_assoc]

/-- C8: `generate_word_number_combinations` emits `word + number` pairs in
outer-word, inner-number order and stops as soon as `max_combinations`
results exist — it is exactly the `max_combinations`-prefix of the full
product; on `(["a","b"], ["1","2","3"], 2)` it returns exactly
`["a1", "a2"]`, stopping mid-way through the first word's pass. -/
theorem word_number_combinations_take (words nums : List String) (maxC : Nat) :
    generate_word_number_combinations words nums maxC =
      (words.flatMap (fun w => nums.map (fun n => w ++ n))).take maxC ∧
    generate_word_number_combinations ["a", "b"] ["1", "2", "3"] 2 = ["a1", "a2"] := by
  constructor
  · rw [generate_word_number_combinations, gwncOuter_eq words nums maxC [] 0 (Nat.zero_le _)]
    simp
  · decide

/-! ### C4: number-suffix phase -/

theorem string_append_data (a b : String) : (a ++ b).data = a.data ++ b.data := by
  cases a
  cases b
  rfl

theorem natStrAux_ne_nil (f n : Nat) : natStrAux f n ≠ [] := by
  cases f with
  | zero => simp [natStrAux]
  | succ f =>
    unfold natStrAux
    split
    · simp
    · simp

theorem append_pyStr_ne_empty (w : String) (n : Nat) :
    w ++ (⟨pyStrChars n⟩ : String) ≠ "" := by
  intro hcon
  have hdata := congrArg String.data hcon
  rw [string_append_data] at hdata
  rcases List.append_eq_nil.1 hdata with ⟨_, hpy⟩
  exact natStrAux_ne_nil n n hpy

/-- The per-word insertion list of `generate_with_numbers` as the spec's
amended description reads it: the common suffixes, then `word + str(i)` for
every `i` in the inclusive range `0 .. min 99 maxN`. -/
def numberInsertionsSpec (maxN : Int) (word : String) : List String :=
  commonNumbers.map (fun n => word ++ n) ++
    (List.range (min 99 maxN.toNat + 1)).map
      (fun i => word ++ (⟨pyStrChars i⟩ : String))

set_option maxRecDepth 4000 in
/-- C4 counterexample: with the default `max_number = 999` the claimed
suffix `100` is never appended — the sequential loop is
`range(min(100, max_number + 1))`, i.e. `0..99` — while `99` is. -/
theorem generate_with_numbers_hundred_cex :
    ("a100" ∉ (generate_with_numbers initState ["a"] 999).wordlist) ∧
    ("a99" ∈ (generate_with_numbers initState ["a"] 999).wordlist) := by decide

/-- C4 as amended: for every `max_number >= 0`, `generate_with_numbers`
inserts, per seed word, the fixed common suffixes and then the sequential
suffixes `word + str(i)` for `i` in the inclusive range
`0 .. min 99 max_number` (the loop runs `min 100 (max_number + 1)` times),
so with the default `max_number = 999` the largest sequential suffix is
`99`. -/
theorem generate_with_numbers_suffix_range (st : GenState)
    (base : List String) (maxN : Int) (h : 0 ≤ maxN) :
    (generate_with_numbers st base maxN).wordlist =
      st.wordlist ∪
        ((base.flatMap (numberInsertionsSpec maxN)).filter (fun w => w ≠ "")).toFinset ∧
    seqCount maxN = min 99 maxN.toNat + 1 ∧
    (∀ w ∈ base, ∀ i : Nat, i ≤ min 99 maxN.toNat →
        (w ++ (⟨pyStrChars i⟩ : String)) ∈ (generate_with_numbers st base maxN).wordlist) := by
  have hseq : seqCount maxN = min 99 maxN.toNat + 1 := by
    unfold seqCount
    omega
  have hspec : numberInsertions maxN = numberInsertionsSpec maxN := by
    funext w
    unfold numberInsertions numberInsertionsSpec
    rw [hseq]
  have hmaineq : (generate_with_numbers st base maxN).wordlist =
      st.wordlist ∪
        ((base.flatMap (numberInsertionsSpec maxN)).filter (fun w => w ≠ "")).toFinset := by
    show addWords st.wordlist (base.flatMap (numberInsertions maxN)) = _
    rw [addWords_eq, hspec]
  refine ⟨hmaineq, hseq, ?_⟩
  intro w hw i hi
  rw [hmaineq]
  apply Finset.mem_union_right
  rw [List.mem_toFinset, List.mem_filter]
  constructor
  · rw [List.mem_flatMap]
    refine ⟨w, hw, ?_⟩
    unfold numberInsertionsSpec
    rw [List.mem_append]
    right
    rw [List.mem_map]
    exact ⟨i, List.mem_range.2 (by omega), rfl⟩
  · simpa using append_pyStr_ne_empty w i

/-- Witness for the amended C4 at `max_number = 0` on the seed `["a"]`. -/
theorem generate_with_numbers_suffix_range_witness :
    (0 : Int) ≤ 0 ∧
    (generate_with_numbers initState ["a"] 0).wordlist =
      initState.wordlist ∪
        ((["a"].flatMap (numberInsertionsSpec 0)).filter (fun w => w ≠ "")).toFinset :=
  ⟨by decide, (generate_with_numbers_suffix_range initState ["a"] 0 (by decide)).1⟩

/-! ### C5: leet-speak variants -/

/-- C5 counterexample: the claimed containment of the lowercase form fails —
`generate_leet_speak_patterns("PASSWORD")` does not contain `"password"`
(the list starts from the original word only; the lowercase form is not
added by itself). -/
theorem leet_lowercase_missing_cex :
    "password" ∉ generate_leet_speak_patterns "PASSWORD" ∧
    pyLower "PASSWORD" = "password" := by decide

/-- C5 as amended: `generate_leet_speak_patterns(word)` contains the original
`word` unchanged (the lowercase form only when `word` is already lowercase),
and every other returned variant is obtained from the lowercased word by
simultaneously replacing all occurrences of exactly one letter class with one
of its leet substitutes — no variant substitutes two letter classes at once
(concretely, `"p@ssword"` is a variant of `"password"` but `"p@ssw0rd"` is
not). -/
theorem leet_single_class_substitution (word : String) :
    word ∈ generate_leet_speak_patterns word ∧
    (∀ v ∈ generate_leet_speak_patterns word, v = word ∨
      ∃ p ∈ leetSpeakMap, (pyLower word).data.contains p.1 ∧
        ∃ r ∈ p.2.drop 1, v = replaceChar (pyLower word) p.1 r) ∧
    (pyLower word = word → pyLower word ∈ generate_leet_speak_patterns word) ∧
    "p@ssword" ∈ generate_leet_speak_patterns "password" ∧
    "p@ssw0rd" ∉ generate_leet_speak_patterns "password" := by
  refine ⟨?_, ?_, ?_, by decide, by decide⟩
  · unfold generate_leet_speak_patterns
    exact List.mem_cons_self _ _
  · intro v hv
    unfold generate_leet_speak_patterns at hv
    rcases List.mem_cons.1 hv with rfl | hv'
    · exact Or.inl rfl
    · right
      rcases List.mem_flatMap.1 hv' with ⟨p, hp, hvp⟩
      refine ⟨p, hp, ?_⟩
      by_cases hc : (pyLower word).data.contains p.1
      · rw [if_pos hc] at hvp
        rcases List.mem_map.1 hvp with ⟨r, hr, rfl⟩
        exact ⟨hc, r, hr, rfl⟩
      · rw [if_neg hc] at hvp
        exact absurd hvp (List.not_mem_nil v)
  · intro hlow
    rw [hlow]
    unfold generate_leet_speak_patterns
    exact List.mem_cons_self _ _

/-- Witness for the amended C5 at the lowercase input `"password"`. -/
theorem leet_single_class_substitution_witness :
    pyLower "password" = "password" ∧
    pyLower "password" ∈ generate_leet_speak_patterns "password" :=
  ⟨by decide, (leet_single_class_substitution "password").2.2.1 (by decide)⟩

/-! ### C6: deterministic sorted bounded output -/

/-- C6: `save_to_file` writes the candidate set sorted by length then
lexicographically, truncated to `max_words` entries when `max_words > 0` and
the set is larger (everything when `max_words = 0`); hence for one and the
same final candidate set — two duplicate-free materializations with equal
underlying set — the produced file content is byte-identical regardless of
insertion/materialization order. -/
theorem save_to_file_deterministic (l₁ l₂ : List String) (m : Nat)
    (h₁ : l₁.Nodup) (h₂ : l₂.Nodup) (hset : l₁.toFinset = l₂.toFinset) :
    saveContent l₁ m = saveContent l₂ m ∧
    (saveLines l₁ m).Sorted lenLex ∧
    (saveLines l₁ 0).Perm l₁ ∧
    (0 < m → (saveLines l₁ m).length = min l₁.length m) := by
  have hperm : l₁.Perm l₂ := List.perm_of_nodup_nodup_toFinset_eq h₁ h₂ hset
  have hsorteq : List.insertionSort lenLex l₁ = List.insertionSort lenLex l₂ :=
    List.eq_of_perm_of_sorted
      (((List.perm_insertionSort lenLex l₁).trans hperm).trans
        (List.perm_insertionSort lenLex l₂).symm)
      (List.sorted_insertionSort lenLex l₁) (List.sorted_insertionSort lenLex l₂)
  have hlen : (List.insertionSort lenLex l₁).length = l₁.length :=
    (List.perm_insertionSort lenLex l₁).length_eq
  refine ⟨?_, ?_, ?_, ?_⟩
  · unfold saveContent saveLines
    rw [hsorteq]
  · unfold saveLines
    dsimp only
    split
    · exact List.Pairwise.sublist (List.take_sublist _ _)
        (List.sorted_insertionSort lenLex l₁)
    · exact List.sorted_insertionSort lenLex l₁
  · unfold saveLines
    dsimp only
    rw [if_neg (by omega)]
    exact List.perm_insertionSort lenLex l₁
  · intro hm
    unfold saveLines
    dsimp only
    by_cases hcond : 0 < m ∧ m < (List.insertionSort lenLex l₁).length
    · rw [if_pos hcond, List.length_take]
      omega
    · rw [if_neg hcond]
      omega

/-- Witness for C6: two materialization orders of the same two-element set
give identical output, truncated to one line. -/
theorem save_to_file_deterministic_witness :
    (["b", "a"] : List String).Nodup ∧
    (["b", "a"] : List String).toFinset = (["a", "b"] : List String).toFinset ∧
    saveContent ["b", "a"] 1 = saveContent ["a", "b"] 1 :=
  ⟨by decide, by decide,
    (save_to_file_deterministic ["b", "a"] ["a", "b"] 1
      (by decide) (by decide) (by decide)).1⟩

/-! ### C3: four-digit year patterns -/

theorem natStrAux_lt10 (f n : Nat) (h : n < 10) : natStrAux f n = [digitChar n] := by
  cases f with
  | zero => simp [natStrAux, Nat.mod_eq_of_lt h]
  | succ f => simp [natStrAux, h]

theorem natStrAux_step (f n : Nat) (h : 10 ≤ n) :
    natStrAux (f + 1) n = natStrAux f (n / 10) ++ [digitChar (n % 10)] := by
  simp [natStrAux, Nat.not_lt.2 h]

theorem natStrAux_four_digit (f n : Nat) (hf : 3 ≤ f) (h1 : 1000 ≤ n) (h2 : n ≤ 9999) :
    natStrAux f n = [digitChar (n / 1000), digitChar (n / 100 % 10),
      digitChar (n / 10 % 10), digitChar (n % 10)] := by
  obtain ⟨g, rfl⟩ : ∃ g, f = g + 3 := ⟨f - 3, by omega⟩
  rw [natStrAux_step (g + 2) n (by omega)]
  rw [natStrAux_step (g + 1) (n / 10) (by omega)]
  rw [natStrAux_step g (n / 10 / 10) (by omega)]
  rw [natStrAux_lt10 g (n / 10 / 10 / 10) (by omega)]
  have e2 : n / 10 / 10 = n / 100 := by omega
  have e3 : n / 10 / 10 / 10 = n / 1000 := by omega
  rw [e3, e2]
  simp

theorem pyStrChars_four_digit (n : Nat) (h1 : 1000 ≤ n) (h2 : n ≤ 9999) :
    pyStrChars n = [digitChar (n / 1000), digitChar (n / 100 % 10),
      digitChar (n / 10 % 10), digitChar (n % 10)] := by
  unfold pyStrChars
  exact natStrAux_four_digit n n (by omega) h1 h2

theorem mem_intRange_bounds (s e y : Int) (hy : y ∈ intRange s e) :
    s ≤ y ∧ y ≤ e := by
  unfold intRange at hy
  rcases List.mem_map.1 hy with ⟨i, hi, rfl⟩
  rw [List.mem_range] at hi
  omega

theorem flatMap_congr_mem {α β : Type} (l : List α) (f g : α → List β)
    (h : ∀ a ∈ l, f a = g a) : l.flatMap f = l.flatMap g := by
  induction l with
  | nil => rfl
  | cons a t ih =>
    rw [List.flatMap_cons, List.flatMap_cons, h a (List.mem_cons_self a t),
      ih (fun b hb => h b (List.mem_cons_of_mem a hb))]

theorem intRange_ascending (s e : Int) : (intRange s e).Pairwise (· < ·) := by
  unfold intRange
  refine List.Pairwise.map _ (fun a b hab => ?_) (List.pairwise_lt_range _)
  omega

/-- The 4-digit decimal form of a year `1000 ≤ y ≤ 9999`, written out
digit by digit. -/
def fourDigitForm (y : Int) : String :=
  ⟨[digitChar (y.toNat / 1000), digitChar (y.toNat / 100 % 10),
    digitChar (y.toNat / 10 % 10), digitChar (y.toNat % 10)]⟩

/-- The trailing-2-digit form of a year: its last two decimal digits
(zero-padded). -/
def trailingTwoForm (y : Int) : String :=
  ⟨[digitChar (y.toNat / 10 % 10), digitChar (y.toNat % 10)]⟩

/-- C3: for 4-digit year bounds with `start_year ≤ end_year`,
`generate_year_patterns` emits, per year of the ascending range, the 4-digit
decimal form immediately followed by the trailing-2-digit form; concretely
`generate_year_patterns(2023, 2024) = ["2023", "23", "2024", "24"]`. -/
theorem year_patterns_four_digit (s e : Int)
    (h1 : 1000 ≤ s) (h2 : e ≤ 9999) (h3 : s ≤ e) :
    generate_year_patterns s e =
      (intRange s e).flatMap (fun y => [fourDigitForm y, trailingTwoForm y]) ∧
    (intRange s e).Pairwise (· < ·) ∧
    generate_year_patterns 2023 2024 = ["2023", "23", "2024", "24"] := by
  refine ⟨?_, intRange_ascending s e, by decide⟩
  unfold generate_year_patterns
  apply flatMap_congr_mem
  intro y hy
  obtain ⟨hys, hye⟩ := mem_intRange_bounds s e y hy
  have hnn : ¬ y < 0 := by omega
  have hchars : intStrChars y = pyStrChars y.toNat := by
    unfold intStrChars
    rw [if_neg hnn]
  have h4 := pyStrChars_four_digit y.toNat (by omega) (by omega)
  rw [hchars, h4]
  unfold fourDigitForm trailingTwoForm
  rfl

/-- Witness for C3 at the claim's concrete range `(2023, 2024)`. -/
theorem year_patterns_four_digit_witness :
    (1000 : Int) ≤ 2023 ∧ (2024 : Int) ≤ 9999 ∧ (2023 : Int) ≤ 2024 ∧
    generate_year_patterns 2023 2024 = ["2023", "23", "2024", "24"] :=
  ⟨by decide, by decide, by decide,
    (year_patterns_four_digit 2023 2024 (by decide) (by decide) (by decide)).2.2⟩

/-! ### C9: mutation phases operate on the seed words -/

/-- The set of strings the three mutation passes insert, as a function of the
original seed-word list and the mutation toggles alone: the non-empty
`PatternGenerator` variants of the seed words. -/
def mutationInsertions (base : List String) (m : MutationsConfig) : Finset String :=
  (if (m.leetspeak).getD false then
      (base.flatMap generate_leet_speak_patterns).toFinset.filter (fun w => w ≠ "")
    else ∅) ∪
  (if (m.uppercase).getD false then
      (base.flatMap generate_case_variations).toFinset.filter (fun w => w ≠ "")
    else ∅) ∪
  (if (m.special).getD false then
      ((base.flatMap generate_special_char_variations).filter (fun w => w ≠ "")).toFinset
    else ∅)

theorem applyMutationPhases_wordlist (st : GenState) (base : List String)
    (m : MutationsConfig) :
    (applyMutationPhases st base m).wordlist = st.wordlist ∪ mutationInsertions base m := by
  unfold applyMutationPhases mutationInsertions
  by_cases hl : (m.leetspeak).getD false <;>
    by_cases hu : (m.uppercase).getD false <;>
      by_cases hs : (m.special).getD false <;>
        simp [hl, hu, hs, apply_leet_speak, apply_uppercase_variations,
          apply_special_characters, addWords_eq, Finset.union_assoc]

/-- C9: during `generate_dictionary` the leet-speak, uppercase-variation and
special-character passes are applied to the original seed-word list from the
configuration, never to the accumulated candidate set: the final word set is
the set accumulated by phases 1–6 united with `mutationInsertions`, a
function of the seed words and toggles only, built purely from the
`PatternGenerator` variant operations on those seed words. -/
theorem mutation_phases_use_seed_words (fs : String → Option (List String))
    (cfg : UserConfig) (st : GenState) (h : cfg.base_words.getD [] ≠ []) :
    (generate_dictionary fs cfg st).1.wordlist =
      (generatePhases1to6 fs cfg st).wordlist ∪
        mutationInsertions (cfg.base_words.getD [])
          (cfg.mutations.getD ⟨none, none, none, none⟩) := by
  have hne : (cfg.base_words.getD []).isEmpty = false := by
    cases hb : cfg.base_words.getD [] with
    | nil => exact absurd hb h
    | cons a t => rfl
  unfold generate_dictionary
  simp only [hne, Bool.false_eq_true, if_false]
  exact applyMutationPhases_wordlist _ _ _

/-- Witness for C9: a run with only the seed `["a"]` configured. -/
theorem mutation_phases_use_seed_words_witness :
    ((⟨some ["a"], none, none, none, none, none, none, none⟩ : UserConfig).base_words.getD []) ≠ [] ∧
    (generate_dictionary (fun _ => none)
        ⟨some ["a"], none, none, none, none, none, none, none⟩ initState).1.wordlist =
      (generatePhases1to6 (fun _ => none)
        ⟨some ["a"], none, none, none, none, none, none, none⟩ initState).wordlist ∪
        mutationInsertions ["a"] ⟨none, none, none, none⟩ :=
  ⟨by decide,
    mutation_phases_use_seed_words (fun _ => none)
      ⟨some ["a"], none, none, none, none, none, none, none⟩ initState (by decide)⟩

end PwSuite
